import Mathlib

/-!
# NeuraSentinel swing-analytics engine: verification of the specification

A shallow embedding of the swing capture and analytics engine of the
NeuraSentinel prototype (frontend pages `ProfilePage.tsx`, `DevicePage.tsx`,
`DashboardPage.tsx`), together with theorems settling the claims of the
specification about it.

Conventions of the embedding:
* JavaScript numbers are modelled as exact rationals (`ℚ`); counts as `ℕ`.
* JavaScript truthiness tests such as `totalCount ? x / totalCount : 0` are
  modelled as `if totalCount = 0 then 0 else x / totalCount`.
* Stateful code (the BLE capture buffer) is modelled as explicit state
  passing over a state structure, with one step function per event handler.
* Fallible operations return `Option`.
-/

namespace NeuraSentinel

/-- Per-shot-type running aggregate, as in `ShotStats` of `services/api`. -/
structure ShotStats where
  shot_type : String
  count : ℕ
  average_confidence : ℚ
  average_speed_mps : ℚ
deriving DecidableEq, Repr

/-- One session of a player history: a session id and its shot stats. -/
structure SessionEntry where
  session_id : String
  shots : List ShotStats
deriving DecidableEq, Repr

/-- Result type of `summarizeShots`. -/
structure ShotSummary where
  avgAccuracy : ℚ
  avgSpeed : ℚ
deriving DecidableEq, Repr

/-- The accumulator loop of `summarizeShots` (ProfilePage.tsx lines 8-15):
`totalCount`, `sumAccuracy`, `sumSpeed` accumulated over the shot list. -/
def shotTotals (shots : List ShotStats) : ℕ × ℚ × ℚ :=
  shots.foldl
    (fun acc s =>
      (acc.1 + s.count,
       acc.2.1 + s.average_confidence * (s.count : ℚ),
       acc.2.2 + s.average_speed_mps * (s.count : ℚ)))
    (0, 0, 0)

/-- Function `summarizeShots` (ProfilePage.tsx lines 4-20, duplicated in
DevicePage.tsx lines 220-234): count-weighted session summary, `0` when the
list is empty or the total count is `0`. -/
def summarizeShots (shots : List ShotStats) : ShotSummary :=
  if shots.length = 0 then ⟨0, 0⟩
  else
    let t := shotTotals shots
    ⟨if t.1 = 0 then 0 else t.2.1 / (t.1 : ℚ),
     if t.1 = 0 then 0 else t.2.2 / (t.1 : ℚ)⟩

/-- The career-wide accumulation loop of `ProfilePage` (lines 99-112):
`overallCount` and `overallAccSum` over every shot of every session. -/
def careerTotals (sessions : List SessionEntry) : ℕ × ℚ :=
  sessions.foldl
    (fun acc session =>
      session.shots.foldl
        (fun a shot =>
          (a.1 + shot.count, a.2 + shot.average_confidence * (shot.count : ℚ)))
        acc)
    (0, 0)

/-- Definition `overallAccuracy` of `ProfilePage` (line 114): guarded career-wide
weighted mean. -/
def overallAccuracy (sessions : List SessionEntry) : ℚ :=
  let t := careerTotals sessions
  if t.1 = 0 then 0 else t.2 / (t.1 : ℚ)

/-- The skill tiers of the level classifier. -/
inductive Level where
  | Amateur
  | Veteran
  | Pro
deriving DecidableEq, Repr

/-- The level classifier of `ProfilePage` (lines 116-123): Pro checked
first, then Veteran, else Amateur. -/
def levelOf (overallCount : ℕ) (acc : ℚ) : Level :=
  if overallCount ≥ 400 ∧ acc ≥ (0.8 : ℚ) then .Pro
  else if overallCount ≥ 200 ∧ acc ≥ (0.65 : ℚ) then .Veteran
  else .Amateur

/-! ## Specification-side definitions

These follow the words of the spec, to be compared with the definitions
translated from the source. -/

/-- Spec-side: the count-weighted mean of `average_confidence`, `0` when the
total count is `0`. -/
def specWeightedAvgAcc (shots : List ShotStats) : ℚ :=
  let total := (shots.map (·.count)).sum
  if total = 0 then 0
  else (shots.map (fun s => s.average_confidence * (s.count : ℚ))).sum / (total : ℚ)

/-- Spec-side: the count-weighted mean of `average_speed_mps`, `0` when the
total count is `0`. -/
def specWeightedAvgSpeed (shots : List ShotStats) : ℚ :=
  let total := (shots.map (·.count)).sum
  if total = 0 then 0
  else (shots.map (fun s => s.average_speed_mps * (s.count : ℚ))).sum / (total : ℚ)

/-- Spec-side: the unweighted mean of the per-shot-type averages (the naive
mean of means the spec rules out), `0` on the empty list. -/
def specUnweightedAvgAcc (shots : List ShotStats) : ℚ :=
  if shots.length = 0 then 0
  else (shots.map (·.average_confidence)).sum / (shots.length : ℚ)

/-- The fold of `shotTotals` started at any accumulator equals the
accumulator plus the componentwise sums. -/
theorem shotTotals_go (shots : List ShotStats) (a : ℕ) (b c : ℚ) :
    shots.foldl
      (fun acc s =>
        (acc.1 + s.count,
         acc.2.1 + s.average_confidence * (s.count : ℚ),
         acc.2.2 + s.average_speed_mps * (s.count : ℚ)))
      (a, b, c)
    = (a + (shots.map (·.count)).sum,
       b + (shots.map (fun s => s.average_confidence * (s.count : ℚ))).sum,
       c + (shots.map (fun s => s.average_speed_mps * (s.count : ℚ))).sum) := by
  induction shots generalizing a b c with
  | nil => simp
  | cons s rest ih =>
      simp only [List.foldl_cons, List.map_cons, List.sum_cons, ih]
      refine Prod.ext ?_ (Prod.ext ?_ ?_) <;> simp <;> ring

/-- Lemma: `shotTotals` computes the three componentwise sums. -/
theorem shotTotals_eq (shots : List ShotStats) :
    shotTotals shots
    = ((shots.map (·.count)).sum,
       (shots.map (fun s => s.average_confidence * (s.count : ℚ))).sum,
       (shots.map (fun s => s.average_speed_mps * (s.count : ℚ))).sum) := by
  simpa using shotTotals_go shots 0 0 0

/-- All shots of all sessions, in order: the iteration domain of the
career-wide loop of `ProfilePage`. -/
def allShots (sessions : List SessionEntry) : List ShotStats :=
  (sessions.map SessionEntry.shots).flatten

/-- The inner per-session fold of `careerTotals`, from any accumulator. -/
theorem careerTotals_inner_go (shots : List ShotStats) (a : ℕ) (b : ℚ) :
    shots.foldl
      (fun a shot =>
        (a.1 + shot.count, a.2 + shot.average_confidence * (shot.count : ℚ)))
      (a, b)
    = (a + (shots.map (·.count)).sum,
       b + (shots.map (fun s => s.average_confidence * (s.count : ℚ))).sum) := by
  induction shots generalizing a b with
  | nil => simp
  | cons s rest ih =>
      simp only [List.foldl_cons, List.map_cons, List.sum_cons, ih]
      refine Prod.ext ?_ ?_ <;> simp <;> ring

/-- The outer fold of `careerTotals`, from any accumulator. -/
theorem careerTotals_go (sessions : List SessionEntry) (a : ℕ) (b : ℚ) :
    sessions.foldl
      (fun acc session =>
        session.shots.foldl
          (fun a shot =>
            (a.1 + shot.count, a.2 + shot.average_confidence * (shot.count : ℚ)))
          acc)
      (a, b)
    = (a + ((allShots sessions).map (·.count)).sum,
       b + ((allShots sessions).map
              (fun s => s.average_confidence * (s.count : ℚ))).sum) := by
  induction sessions generalizing a b with
  | nil => simp [allShots]
  | cons session rest ih =>
      simp only [List.foldl_cons, careerTotals_inner_go, ih, allShots,
        List.map_cons, List.flatten, List.map_append, List.sum_append]
      refine Prod.ext ?_ ?_ <;> simp <;> ring

/-- Lemma: `careerTotals` computes the count sum and the weighted confidence sum
over every shot of every session. -/
theorem careerTotals_eq (sessions : List SessionEntry) :
    careerTotals sessions
    = (((allShots sessions).map (·.count)).sum,
       ((allShots sessions).map
          (fun s => s.average_confidence * (s.count : ℚ))).sum) := by
  simpa using careerTotals_go sessions 0 0

/-- A two-entry shot list with unequal counts, on which the weighted and the
unweighted means differ. -/
def unequalShots : List ShotStats :=
  [⟨"Forehand", 1, 1, 0⟩, ⟨"Smash", 3, 0, 0⟩]

/-- C1: `summarizeShots` and the career-wide overall accuracy are the
count-weighted means of the per-shot-type averages (`0` when the total count
is `0`), and not the unweighted mean of those averages: on a concrete list
with unequal counts the two disagree. -/
theorem summarize_and_career_are_count_weighted :
    (∀ shots : List ShotStats,
        (summarizeShots shots).avgAccuracy = specWeightedAvgAcc shots) ∧
    (∀ shots : List ShotStats,
        (summarizeShots shots).avgSpeed = specWeightedAvgSpeed shots) ∧
    (∀ sessions : List SessionEntry,
        overallAccuracy sessions = specWeightedAvgAcc (allShots sessions)) ∧
    (summarizeShots unequalShots).avgAccuracy
      ≠ specUnweightedAvgAcc unequalShots := by
  refine ⟨?_, ?_, ?_, ?_⟩
  · intro shots
    by_cases h : shots.length = 0
    · rw [List.length_eq_zero] at h
      subst h
      simp [summarizeShots, specWeightedAvgAcc]
    · simp only [summarizeShots, specWeightedAvgAcc, shotTotals_eq, h,
        if_false]
  · intro shots
    by_cases h : shots.length = 0
    · rw [List.length_eq_zero] at h
      subst h
      simp [summarizeShots, specWeightedAvgSpeed]
    · simp only [summarizeShots, specWeightedAvgSpeed, shotTotals_eq, h,
        if_false]
  · intro sessions
    simp only [overallAccuracy, specWeightedAvgAcc, careerTotals_eq]
  · simp only [summarizeShots, specUnweightedAvgAcc, shotTotals, unequalShots]
    norm_num

/-- C2: the level classifier is a total deterministic function of
`(overallCount, overallAccuracy)`; the Pro test is evaluated first, so any
input meeting both the Pro and the Veteran thresholds yields Pro; the
non-Pro inputs meeting the Veteran thresholds yield Veteran, everything else
Amateur; and `(400, 0.80) ↦ Pro`, `(399, 0.80) ↦ Veteran`,
`(150, 0.90) ↦ Amateur`. -/
theorem levelOf_cases :
    levelOf 400 (0.80 : ℚ) = .Pro ∧
    levelOf 399 (0.80 : ℚ) = .Veteran ∧
    levelOf 150 (0.90 : ℚ) = .Amateur ∧
    (∀ (c : ℕ) (a : ℚ), 400 ≤ c → (0.8 : ℚ) ≤ a → levelOf c a = .Pro) ∧
    (∀ (c : ℕ) (a : ℚ), ¬(400 ≤ c ∧ (0.8 : ℚ) ≤ a) →
      200 ≤ c → (0.65 : ℚ) ≤ a → levelOf c a = .Veteran) ∧
    (∀ (c : ℕ) (a : ℚ), ¬(400 ≤ c ∧ (0.8 : ℚ) ≤ a) →
      ¬(200 ≤ c ∧ (0.65 : ℚ) ≤ a) → levelOf c a = .Amateur) := by
  refine ⟨?_, ?_, ?_, ?_, ?_, ?_⟩
  · simp only [levelOf]
    norm_num
  · simp only [levelOf]
    norm_num
  · simp only [levelOf]
    norm_num
  · intro c a hc ha
    simp only [levelOf, ge_iff_le]
    rw [if_pos ⟨hc, ha⟩]
  · intro c a hpro hc ha
    simp only [levelOf, ge_iff_le]
    rw [if_neg hpro, if_pos ⟨hc, ha⟩]
  · intro c a hpro hvet
    simp only [levelOf, ge_iff_le]
    rw [if_neg hpro, if_neg hvet]

/-- Witness for `levelOf_cases`: its hypothesis-bearing conjuncts applied at
concrete inputs. -/
theorem levelOf_cases_witness :
    levelOf 500 (0.9 : ℚ) = .Pro ∧
    levelOf 250 (0.7 : ℚ) = .Veteran ∧
    levelOf 10 (0.5 : ℚ) = .Amateur :=
  ⟨levelOf_cases.2.2.2.1 500 (0.9 : ℚ) (by norm_num) (by norm_num),
   levelOf_cases.2.2.2.2.1 250 (0.7 : ℚ) (by norm_num) (by norm_num)
     (by norm_num),
   levelOf_cases.2.2.2.2.2 10 (0.5 : ℚ) (by norm_num) (by norm_num)⟩

/-- The accumulation loop of `DashboardPage` (lines 52-62): `totalSwings`
and `accWeightedSum` over the shot stats list of the session. -/
def dashboardTotals (stats : List ShotStats) : ℕ × ℚ :=
  stats.foldl
    (fun a stat =>
      (a.1 + stat.count, a.2 + stat.average_confidence * (stat.count : ℚ)))
    (0, 0)

/-- Definition `overallAccuracy` of `DashboardPage` (line 64): guarded session-wide
weighted mean. -/
def dashboardOverallAccuracy (stats : List ShotStats) : ℚ :=
  let t := dashboardTotals stats
  if t.1 = 0 then 0 else t.2 / (t.1 : ℚ)

/-- Lemma: `dashboardTotals` computes the count sum and the weighted confidence
sum. -/
theorem dashboardTotals_eq (stats : List ShotStats) :
    dashboardTotals stats
    = ((stats.map (·.count)).sum,
       (stats.map (fun s => s.average_confidence * (s.count : ℚ))).sum) := by
  simpa [dashboardTotals] using careerTotals_inner_go stats 0 0

/-- C10: every overall-average computation is division-guarded and total:
whenever the counts sum to zero — including on non-empty lists in which every
entry has count 0 — `summarizeShots`, the career-wide `overallAccuracy` and
the dashboard overall accuracy all return exactly `0`. -/
theorem overall_averages_division_guarded :
    (∀ shots : List ShotStats, (shots.map (·.count)).sum = 0 →
      (summarizeShots shots).avgAccuracy = 0 ∧
      (summarizeShots shots).avgSpeed = 0) ∧
    (∀ sessions : List SessionEntry,
      ((allShots sessions).map (·.count)).sum = 0 →
      overallAccuracy sessions = 0) ∧
    (∀ stats : List ShotStats, (stats.map (·.count)).sum = 0 →
      dashboardOverallAccuracy stats = 0) := by
  refine ⟨?_, ?_, ?_⟩
  · intro shots h
    by_cases hlen : shots.length = 0
    · simp [summarizeShots, hlen]
    · simp [summarizeShots, hlen, shotTotals_eq, h]
  · intro sessions h
    simp [overallAccuracy, careerTotals_eq, h]
  · intro stats h
    simp [dashboardOverallAccuracy, dashboardTotals_eq, h]

/-- A non-empty shot list in which every entry has count `0`. -/
def zeroCountShots : List ShotStats :=
  [⟨"Forehand", 0, 0.9, 5⟩, ⟨"Smash", 0, 0.8, 7⟩]

/-- Witness for `overall_averages_division_guarded`: applied to a concrete
non-empty list whose counts are all `0`, and to a session list holding it. -/
theorem overall_averages_division_guarded_witness :
    ((summarizeShots zeroCountShots).avgAccuracy = 0 ∧
      (summarizeShots zeroCountShots).avgSpeed = 0) ∧
    overallAccuracy [⟨"s1", zeroCountShots⟩] = 0 ∧
    dashboardOverallAccuracy zeroCountShots = 0 :=
  ⟨overall_averages_division_guarded.1 zeroCountShots (by decide),
   overall_averages_division_guarded.2.1 [⟨"s1", zeroCountShots⟩] (by decide),
   overall_averages_division_guarded.2.2 zeroCountShots (by decide)⟩

/-! ## Trend engine -/

/-- ECMAScript `x.toFixed(1)` for non-negative `x`: the integer `n` closest
to `x*10` (larger `n` on a tie), printed with one digit after the point. -/
def toFixed1pos (q : ℚ) : String :=
  let n : ℕ := (⌊q * 10 + 1 / 2⌋).toNat
  toString (n / 10) ++ "." ++ toString (n % 10)

/-- ECMAScript `x.toFixed(1)`: negative inputs print a leading minus sign
before the rendering of `-x`. -/
def toFixed1 (q : ℚ) : String :=
  if q < 0 then "-" ++ toFixed1pos (-q) else toFixed1pos q

/-- Function `renderDeltaLabel` (ProfilePage.tsx lines 137-143, duplicated in
DevicePage.tsx lines 280-286). The closure variable `previous` is passed
explicitly. -/
def renderDeltaLabel (previous : Option SessionEntry) (delta : ℚ)
    (unit : String) : String :=
  if previous.isNone then "no previous data"
  else
    let pct := delta * 100
    if |pct| < (1e-3 : ℚ) then "no change in " ++ unit
    else if delta > 0 then toFixed1 pct ++ "% increase in " ++ unit
    else toFixed1 (-pct) ++ "% decrease in " ++ unit

/-- C4: the trend label is "no previous data" without a previous session;
otherwise, with `pct = delta*100`, it is "no change in <unit>" when
`|pct| < 0.001`, "<pct>% increase in <unit>" when `delta > 0`, and
"<|pct|>% decrease in <unit>" otherwise; when the delta is `0` (latest
equals previous) the accuracy label is "no change in accuracy"; and the
percentage is rendered with exactly one digit after the decimal point. -/
theorem renderDeltaLabel_spec :
    (∀ (d : ℚ) (u : String), renderDeltaLabel none d u = "no previous data") ∧
    (∀ (p : SessionEntry) (d : ℚ) (u : String), |d * 100| < (1e-3 : ℚ) →
      renderDeltaLabel (some p) d u = "no change in " ++ u) ∧
    (∀ (p : SessionEntry) (d : ℚ) (u : String), ¬ |d * 100| < (1e-3 : ℚ) →
      0 < d →
      renderDeltaLabel (some p) d u
        = toFixed1 (d * 100) ++ "% increase in " ++ u) ∧
    (∀ (p : SessionEntry) (d : ℚ) (u : String), ¬ |d * 100| < (1e-3 : ℚ) →
      ¬ 0 < d →
      renderDeltaLabel (some p) d u
        = toFixed1 (-(d * 100)) ++ "% decrease in " ++ u) ∧
    (∀ p : SessionEntry, renderDeltaLabel (some p) 0 "accuracy"
        = "no change in accuracy") ∧
    (∀ q : ℚ, 0 ≤ q → ∃ k d : ℕ, d < 10 ∧
      toFixed1 q = toString k ++ "." ++ toString d) := by
  refine ⟨?_, ?_, ?_, ?_, ?_, ?_⟩
  · intro d u
    simp [renderDeltaLabel]
  · intro p d u h
    simp [renderDeltaLabel, h]
  · intro p d u h hd
    simp [renderDeltaLabel, h, hd]
  · intro p d u h hd
    simp [renderDeltaLabel, h, hd]
  · intro p
    simp only [renderDeltaLabel]
    norm_num
    rfl
  · intro q hq
    refine ⟨(⌊q * 10 + 1 / 2⌋).toNat / 10, (⌊q * 10 + 1 / 2⌋).toNat % 10,
      Nat.mod_lt _ (by norm_num), ?_⟩
    rw [toFixed1, if_neg (not_lt.mpr hq)]
    rfl

/-- Witness for `renderDeltaLabel_spec`: each hypothesis-bearing conjunct
applied at a concrete input. -/
theorem renderDeltaLabel_spec_witness :
    renderDeltaLabel (some ⟨"p", []⟩) (1 / 1000000 : ℚ) "accuracy"
      = "no change in " ++ "accuracy" ∧
    renderDeltaLabel (some ⟨"p", []⟩) (1 / 20 : ℚ) "accuracy"
      = toFixed1 ((1 / 20 : ℚ) * 100) ++ "% increase in " ++ "accuracy" ∧
    renderDeltaLabel (some ⟨"p", []⟩) (-(1 / 20) : ℚ) "speed"
      = toFixed1 (-((-(1 / 20) : ℚ) * 100)) ++ "% decrease in " ++ "speed" ∧
    (∃ k d : ℕ, d < 10 ∧ toFixed1 (5 : ℚ) = toString k ++ "." ++ toString d) :=
  ⟨renderDeltaLabel_spec.2.1 ⟨"p", []⟩ (1 / 1000000 : ℚ) "accuracy"
      (by norm_num [abs_of_nonneg]),
   renderDeltaLabel_spec.2.2.1 ⟨"p", []⟩ (1 / 20 : ℚ) "accuracy"
      (by norm_num) (by norm_num),
   renderDeltaLabel_spec.2.2.2.1 ⟨"p", []⟩ (-(1 / 20) : ℚ) "speed"
      (by norm_num) (by norm_num),
   renderDeltaLabel_spec.2.2.2.2.2 (5 : ℚ) (by norm_num)⟩

/-- The previous session of the trend example in the spec: overall accuracy
`0.80`. -/
def prevTrendSession : SessionEntry :=
  ⟨"session_1", [⟨"Forehand", 10, 0.80, 8⟩]⟩

/-- The latest session of the trend example in the spec: overall accuracy
`0.85`. -/
def latestTrendSession : SessionEntry :=
  ⟨"session_2", [⟨"Forehand", 10, 0.85, 8⟩]⟩

/-- C5 counterexample: with a latest-session overall accuracy of `0.85` and
a previous-session overall accuracy of `0.80`, the accuracy trend label is not
"6.3% increase in accuracy". -/
theorem trend_example_label_not_6_3 :
    renderDeltaLabel (some prevTrendSession)
        ((summarizeShots latestTrendSession.shots).avgAccuracy
          - (summarizeShots prevTrendSession.shots).avgAccuracy) "accuracy"
      ≠ "6.3% increase in accuracy" := by
  have h5 : (summarizeShots latestTrendSession.shots).avgAccuracy
      - (summarizeShots prevTrendSession.shots).avgAccuracy = 1 / 20 := by
    simp [summarizeShots, shotTotals, latestTrendSession, prevTrendSession]
    norm_num
  rw [h5, renderDeltaLabel]
  norm_num [toFixed1, toFixed1pos, Int.floor_eq_iff]
  decide

/-- C5 amended: with a latest-session overall accuracy of `0.85` and a
previous-session overall accuracy of `0.80`, the accuracy trend label is exactly
"5.0% increase in accuracy" (the delta is the absolute difference `0.05`,
so `pct = 5.0`, not the relative change `6.25%`). -/
theorem trend_example_label_5_0 :
    renderDeltaLabel (some prevTrendSession)
        ((summarizeShots latestTrendSession.shots).avgAccuracy
          - (summarizeShots prevTrendSession.shots).avgAccuracy) "accuracy"
      = "5.0% increase in accuracy" := by
  have h5 : (summarizeShots latestTrendSession.shots).avgAccuracy
      - (summarizeShots prevTrendSession.shots).avgAccuracy = 1 / 20 := by
    simp [summarizeShots, shotTotals, latestTrendSession, prevTrendSession]
    norm_num
  rw [h5, renderDeltaLabel]
  norm_num [toFixed1, toFixed1pos, Int.floor_eq_iff]
  rfl

/-! ## Feedback generator

`renderAIFeedback` (ProfilePage.tsx lines 145-178, duplicated verbatim in
DevicePage.tsx lines 288-321) returns one of seven coaching strings. The
messages are modelled by the constructors of `FeedbackMsg`, each carrying
the values the source interpolates into the corresponding string (shot-type
names, and percentages rendered with `toFixed(1)`). -/

/-- The seven coaching messages of `renderAIFeedback`, with the values the
source interpolates into each. -/
inductive FeedbackMsg where
  /-- "No swings recorded yet. ..." -/
  | getStarted
  /-- "Amazing start! Your overall accuracy is <accPct>%. ... your <shot> ..." -/
  | amazingStart (accPct : ℚ) (shot : String)
  /-- "Great foundation. ... keep polishing your <shot> ..." -/
  | greatFoundation (shot : String)
  /-- "You are at the beginning of a strong journey. ... controlled <shot> swings ..." -/
  | journey (shot : String)
  /-- "Nice improvement! Your average accuracy improved by <deltaPct>% ..." -/
  | improvement (deltaPct : ℚ)
  /-- "Today was a slightly tougher session: accuracy was <dropPct>% lower ... <shot> swings ..." -/
  | regression (dropPct : ℚ) (shot : String)
  /-- "Your accuracy is stable ... pick one shot (e.g. <shot>) ..." -/
  | stable (shot : String)
deriving DecidableEq, Repr

/-- Stable insertion into a list sorted by `count` descending: an element
goes before the first strictly smaller-or-equal... it goes before the first
element whose count it reaches, so earlier-listed elements win ties. -/
def insertByCountDesc (s : ShotStats) : List ShotStats → List ShotStats
  | [] => [s]
  | t :: ts =>
      if s.count ≥ t.count then s :: t :: ts else t :: insertByCountDesc s ts

/-- The stable descending-by-`count` sort of
`[...latest.shots].sort((a, b) => b.count - a.count)`: ECMAScript `sort` is
stable, so any stable sort models it; insertion sort is used here. -/
def sortByCountDesc : List ShotStats → List ShotStats
  | [] => []
  | s :: rest => insertByCountDesc s (sortByCountDesc rest)

/-- Function `renderAIFeedback` (ProfilePage.tsx lines 145-178): the closure
variables `latest`, `previous` are passed explicitly; `latestSummary`,
`prevSummary` and `accuracyDelta` are recomputed as at ProfilePage.tsx
lines 49-52. -/
def renderAIFeedback (latest previous : Option SessionEntry) : FeedbackMsg :=
  match latest with
  | none => .getStarted
  | some l =>
    if l.shots.length = 0 then .getStarted
    else
      let latestSummary := summarizeShots l.shots
      let prevSummary :=
        match previous with
        | some p => summarizeShots p.shots
        | none => ⟨0, 0⟩
      let accuracyDelta := latestSummary.avgAccuracy - prevSummary.avgAccuracy
      let primaryShot := (sortByCountDesc l.shots).headD ⟨"", 0, 0, 0⟩
      let accPct := latestSummary.avgAccuracy * 100
      match previous with
      | none =>
          if accPct ≥ 90 then .amazingStart accPct primaryShot.shot_type
          else if accPct ≥ 75 then .greatFoundation primaryShot.shot_type
          else .journey primaryShot.shot_type
      | some _ =>
          if accuracyDelta > (0.02 : ℚ) then .improvement (accuracyDelta * 100)
          else if accuracyDelta < (-0.02 : ℚ) then
            .regression (-accuracyDelta * 100) primaryShot.shot_type
          else .stable primaryShot.shot_type

/-- One step of the dominant-shot scan of the spec: keep the current best unless
a strictly higher count appears (so the first encountered wins ties). -/
def domStep (best t : ShotStats) : ShotStats :=
  if best.count < t.count then t else best

/-- Spec-side: the shot stats entry with the highest `count`, ties resolving
to the first encountered; `none` on an empty list. -/
def leftmostMaxCount : List ShotStats → Option ShotStats
  | [] => none
  | s :: rest => some (rest.foldl domStep s)

/-- The dominant-shot fold from any start equals the fold of the tail
combined with the start by `domStep`. -/
theorem foldl_domStep_eq (rest : List ShotStats) (s : ShotStats) :
    rest.foldl domStep s
      = (match leftmostMaxCount rest with
         | none => s
         | some m => if s.count < m.count then m else s) := by
  induction rest generalizing s with
  | nil => rfl
  | cons t ts ih =>
      show ts.foldl domStep (domStep s t) = _
      rw [ih (domStep s t)]
      have hts : leftmostMaxCount (t :: ts) = some (ts.foldl domStep t) := rfl
      rw [hts, ih t]
      cases hm : leftmostMaxCount ts with
      | none => simp only [domStep]
      | some m =>
          simp only [domStep]
          split_ifs <;> first | rfl | omega

/-- The head of the stable descending sort is the first-encountered
maximal-count entry. -/
theorem sortByCountDesc_head (l : List ShotStats) :
    (sortByCountDesc l).head? = leftmostMaxCount l := by
  induction l with
  | nil => rfl
  | cons s rest ih =>
      show (insertByCountDesc s (sortByCountDesc rest)).head? = _
      have hmax : leftmostMaxCount (s :: rest)
          = some (rest.foldl domStep s) := rfl
      rw [hmax, foldl_domStep_eq]
      cases hs : sortByCountDesc rest with
      | nil =>
          rw [hs] at ih
          simp only [List.head?] at ih
          rw [← ih]
          rfl
      | cons t ts =>
          rw [hs] at ih
          simp only [List.head?] at ih
          rw [← ih]
          dsimp only
          show (if s.count ≥ t.count then s :: t :: ts
                else t :: insertByCountDesc s ts).head? = _
          by_cases h1 : s.count ≥ t.count
          · rw [if_pos h1, if_neg (show ¬ s.count < t.count by omega)]
            rfl
          · rw [if_neg h1, if_pos (show s.count < t.count by omega)]
            rfl

/-- Spec-side feedback decision tree, written from the words of the claim:
rules evaluated top-down, first match winning; non-strict absolute-accuracy
cuts at 90% and 75% of accuracy; strict delta cuts at `±0.02` (so exactly
`±0.02` is "stable"); dominant shot = highest count, first encountered on a
tie. -/
def specFeedback (latest previous : Option SessionEntry) : FeedbackMsg :=
  match latest with
  | none => .getStarted
  | some l =>
    match leftmostMaxCount l.shots with
    | none => .getStarted
    | some dom =>
      let acc := (summarizeShots l.shots).avgAccuracy
      match previous with
      | none =>
          if acc ≥ (9 / 10 : ℚ) then .amazingStart (acc * 100) dom.shot_type
          else if acc ≥ (3 / 4 : ℚ) then .greatFoundation dom.shot_type
          else .journey dom.shot_type
      | some p =>
          let delta := acc - (summarizeShots p.shots).avgAccuracy
          if delta > (1 / 50 : ℚ) then .improvement (delta * 100)
          else if delta < (-(1 / 50) : ℚ) then
            .regression (-delta * 100) dom.shot_type
          else .stable dom.shot_type

/-- A first-ever session whose overall accuracy is exactly 90%. -/
def boundary90Session : SessionEntry := ⟨"s", [⟨"Forehand", 10, 9/10, 5⟩]⟩

/-- A first-ever session whose overall accuracy is exactly 75%. -/
def boundary75Session : SessionEntry := ⟨"s", [⟨"Forehand", 10, 3/4, 5⟩]⟩

/-- A latest session sitting exactly `+0.02` above `boundary75Session`. -/
def deltaPlus02Session : SessionEntry := ⟨"s2", [⟨"Forehand", 10, 77/100, 5⟩]⟩

/-- A latest session sitting exactly `-0.02` below `boundary75Session`. -/
def deltaMinus02Session : SessionEntry := ⟨"s2", [⟨"Forehand", 10, 73/100, 5⟩]⟩

/-- A session with a count tie between its first two shot entries. -/
def tieSession : SessionEntry :=
  ⟨"s", [⟨"Backhand", 2, 1/2, 1⟩, ⟨"Smash", 2, 1/2, 1⟩, ⟨"Push", 1, 1/2, 1⟩]⟩

/-- C3: the feedback generator agrees everywhere with the decision
tree (top-down, first match wins; `≥` at the 90%/75% absolute cuts; strict
`>`/`<` at the `±0.02` delta cuts; dominant shot = highest count, first
encountered on a tie). In particular: exactly 90% takes the amazing-start
branch, exactly 75% the great-foundation branch, a delta of exactly `+0.02`
or `-0.02` the stable branch, and a count tie names the first-encountered
shot type. -/
theorem renderAIFeedback_eq_spec :
    (∀ latest previous : Option SessionEntry,
      renderAIFeedback latest previous = specFeedback latest previous) ∧
    renderAIFeedback (some boundary90Session) none
      = .amazingStart 90 "Forehand" ∧
    renderAIFeedback (some boundary75Session) none
      = .greatFoundation "Forehand" ∧
    renderAIFeedback (some deltaPlus02Session) (some boundary75Session)
      = .stable "Forehand" ∧
    renderAIFeedback (some deltaMinus02Session) (some boundary75Session)
      = .stable "Forehand" ∧
    renderAIFeedback (some tieSession) none = .journey "Backhand" := by
  refine ⟨?_, ?_, ?_, ?_, ?_, ?_⟩
  · intro latest previous
    cases latest with
    | none => rfl
    | some l =>
        by_cases hl : l.shots.length = 0
        · have hnil : l.shots = [] := List.length_eq_zero.mp hl
          simp [renderAIFeedback, specFeedback, hl, hnil, leftmostMaxCount]
        · have hne : l.shots ≠ [] := fun h => hl (by simp [h])
          obtain ⟨s, rest, hsr⟩ := List.exists_cons_of_ne_nil hne
          have hsort := sortByCountDesc_head l.shots
          cases hsl : sortByCountDesc l.shots with
          | nil =>
              rw [hsl, hsr] at hsort
              exact absurd hsort.symm (by simp [leftmostMaxCount])
          | cons m ms =>
              rw [hsl] at hsort
              simp only [renderAIFeedback, specFeedback, hl, if_false, hsl,
                ← hsort, List.headD]
              cases previous with
              | none =>
                  dsimp only
                  split_ifs <;> first | rfl | (exfalso; linarith)
              | some p =>
                  dsimp only
                  split_ifs <;> first | rfl | (exfalso; linarith)
  · simp only [renderAIFeedback, boundary90Session, summarizeShots,
      shotTotals, sortByCountDesc, insertByCountDesc]
    norm_num
  · simp only [renderAIFeedback, boundary75Session, summarizeShots,
      shotTotals, sortByCountDesc, insertByCountDesc]
    norm_num
  · simp only [renderAIFeedback, deltaPlus02Session, boundary75Session,
      summarizeShots, shotTotals, sortByCountDesc, insertByCountDesc]
    norm_num
  · simp only [renderAIFeedback, deltaMinus02Session, boundary75Session,
      summarizeShots, shotTotals, sortByCountDesc, insertByCountDesc]
    norm_num
  · simp only [renderAIFeedback, tieSession, summarizeShots,
      shotTotals, sortByCountDesc, insertByCountDesc]
    norm_num

/-! ## Device page: frame decoder, capture buffer, window extractor

`DevicePage.tsx`: `addSampleFromNotification` (lines 34-60), `handleConnect`
(lines 62-99), `handleDisconnect` (lines 101-113), `handleSendSwing`
(lines 115-139). Byte buffers are modelled as lists of naturals below 256;
`performance.now()` timestamps as rationals (milliseconds). -/

/-- One decoded inertial sample (`SwingSamplePayload` of `services/api`). -/
structure SwingSamplePayload where
  ax : ℚ
  ay : ℚ
  az : ℚ
  gx : ℚ
  gy : ℚ
  gz : ℚ
  t : ℚ
deriving DecidableEq, Repr

/-- The 32-bit word assembled little-endian from four bytes. -/
def leWord32 (b0 b1 b2 b3 : ℕ) : ℕ :=
  b0 + 2 ^ 8 * b1 + 2 ^ 16 * b2 + 2 ^ 24 * b3

/-- The exact rational value of an IEEE-754 binary32 bit pattern:
`(-1)^sign * (2^23 + frac) * 2^exp / 2^150` for normal numbers and
`(-1)^sign * frac * 2 / 2^150` for subnormals. A pattern with exponent 255
(infinity/NaN) has no rational value; it is mapped by the normal-number
formula, and no claim concerns such frames. -/
def float32Value (w : ℕ) : ℚ :=
  let sign : ℚ := if w / 2 ^ 31 % 2 = 1 then -1 else 1
  let exp : ℕ := w / 2 ^ 23 % 2 ^ 8
  let frac : ℕ := w % 2 ^ 23
  if exp = 0 then sign * (frac : ℚ) * 2 / 2 ^ 150
  else sign * ((2 ^ 23 + frac : ℕ) : ℚ) * 2 ^ exp / 2 ^ 150

/-- Read `value.getFloat32(off, true)` on the notification `DataView`: the four
bytes at `off .. off+3` assembled little-endian and read as a binary32
float. Reads are guarded by the length check, so out-of-range defaults
never arise in guarded code. -/
def getFloat32LE (bytes : List ℕ) (off : ℕ) : ℚ :=
  float32Value
    (leWord32 (bytes.getD off 0) (bytes.getD (off + 1) 0)
      (bytes.getD (off + 2) 0) (bytes.getD (off + 3) 0))

/-- The frame decoder of `addSampleFromNotification` (lines 37-43): `none`
when the buffer is shorter than 24 bytes, otherwise the six little-endian
binary32 floats at byte offsets 0, 4, 8, 12, 16, 20 in the order
`ax, ay, az, gx, gy, gz`. -/
def decodeFrame (bytes : List ℕ) : Option (ℚ × ℚ × ℚ × ℚ × ℚ × ℚ) :=
  if bytes.length < 24 then none
  else
    some (getFloat32LE bytes 0, getFloat32LE bytes 4, getFloat32LE bytes 8,
      getFloat32LE bytes 12, getFloat32LE bytes 16, getFloat32LE bytes 20)

/-- The capture state owned by `DevicePage`: `samplesRef.current`,
`startTimeRef.current`, and the `connected` flag. -/
structure DeviceCaptureState where
  samples : List SwingSamplePayload
  startTime : Option ℚ
  connected : Bool
deriving DecidableEq, Repr

/-- The capture state at page mount: empty buffer, no start time. -/
def initialCaptureState : DeviceCaptureState := ⟨[], none, false⟩

/-- Function `addSampleFromNotification` (lines 34-60) as a state transition: drop
the frame when shorter than 24 bytes; otherwise set the start time and
clear the buffer if no start time exists yet, stamp the sample with
`(now - start) / 1000`, append it, and evict from the front down to 400. -/
def addSampleFromNotification (st : DeviceCaptureState) (bytes : List ℕ)
    (now : ℚ) : DeviceCaptureState :=
  match decodeFrame bytes with
  | none => st
  | some (ax, ay, az, gx, gy, gz) =>
      let start := st.startTime.getD now
      let samples0 := if st.startTime.isNone then [] else st.samples
      let t := (now - start) / 1000
      let samples1 := samples0 ++ [⟨ax, ay, az, gx, gy, gz, t⟩]
      let samples2 :=
        if samples1.length > 400 then samples1.drop (samples1.length - 400)
        else samples1
      { st with samples := samples2, startTime := some start }

/-- The events that touch the capture state: a successful `handleConnect`,
a `handleDisconnect`, and one characteristic notification. -/
inductive DeviceEvent where
  | connectOk
  | disconnect
  | frame (bytes : List ℕ) (now : ℚ)
deriving DecidableEq, Repr

/-- One event step. `handleConnect` (lines 62-99) and `handleDisconnect`
(lines 101-113) only touch the connection flag and UI state: neither writes
`samplesRef` or `startTimeRef`. -/
def deviceStep (st : DeviceCaptureState) (e : DeviceEvent) :
    DeviceCaptureState :=
  match e with
  | .connectOk => { st with connected := true }
  | .disconnect => { st with connected := false }
  | .frame bytes now => addSampleFromNotification st bytes now

/-- Run a sequence of device events from a state. -/
def runDevice (st : DeviceCaptureState) (es : List DeviceEvent) :
    DeviceCaptureState :=
  es.foldl deviceStep st

/-- The append-and-evict step of the sliding buffer in isolation
(lines 53-59): push one sample, then keep only the most recent 400. -/
def pushSample (buf : List SwingSamplePayload) (s : SwingSamplePayload) :
    List SwingSamplePayload :=
  let b := buf ++ [s]
  if b.length > 400 then b.drop (b.length - 400) else b

/-- One classification request (`classifySwing` payload). -/
structure ClassifyRequest where
  player_id : String
  session_id : String
  sampling_rate_hz : ℕ
  samples : List SwingSamplePayload
deriving DecidableEq, Repr

/-- Function `handleSendSwing` (lines 115-139) up to its network call: refuse on an
empty buffer, otherwise build the request from the last 100 samples
(`slice(-100)`) tagged with `sampling_rate_hz = 100`. -/
def handleSendSwing (buf : List SwingSamplePayload) :
    Option ClassifyRequest :=
  if buf.length = 0 then none
  else
    some ⟨"practice_player", "device_session", 100,
      buf.drop (buf.length - 100)⟩

/-- A 24-byte little-endian buffer encoding the binary32 floats
`(1.0, 2.0, 3.0, 4.0, 5.0, 6.0)`. -/
def frame123456 : List ℕ :=
  [0, 0, 128, 63, 0, 0, 0, 64, 0, 0, 64, 64, 0, 0, 128, 64,
   0, 0, 160, 64, 0, 0, 192, 64]

/-- A buffer shorter than 24 bytes decodes to nothing. -/
theorem decodeFrame_eq_none_of_short (bytes : List ℕ)
    (h : bytes.length < 24) : decodeFrame bytes = none := by
  simp [decodeFrame, h]

/-- A buffer of at least 24 bytes decodes to the six little-endian binary32
reads at offsets 0, 4, 8, 12, 16, 20. -/
theorem decodeFrame_eq_some_of_long (bytes : List ℕ)
    (h : 24 ≤ bytes.length) :
    decodeFrame bytes
      = some (getFloat32LE bytes 0, getFloat32LE bytes 4,
          getFloat32LE bytes 8, getFloat32LE bytes 12,
          getFloat32LE bytes 16, getFloat32LE bytes 20) := by
  rw [decodeFrame, if_neg (by omega)]

/-- The example frame decodes to `(1, 2, 3, 4, 5, 6)`. -/
theorem decodeFrame_frame123456 :
    decodeFrame frame123456 = some (1, 2, 3, 4, 5, 6) := by
  rw [decodeFrame_eq_some_of_long frame123456 (by norm_num [frame123456])]
  norm_num [getFloat32LE, frame123456, leWord32, float32Value]

/-- A read within the first segment of an appended buffer ignores the
appended tail. -/
theorem getFloat32LE_append (bytes extra : List ℕ) (off : ℕ)
    (h : off + 3 < bytes.length) :
    getFloat32LE (bytes ++ extra) off = getFloat32LE bytes off := by
  have key : ∀ i, i < bytes.length →
      (bytes ++ extra).getD i 0 = bytes.getD i 0 := by
    intro i hi
    simp [List.getD, List.getElem?_append, hi]
  unfold getFloat32LE
  rw [key off (by omega), key (off + 1) (by omega), key (off + 2) (by omega),
    key (off + 3) (by omega)]

/-- C6: the frame decoder produces a sample iff the notification buffer is
at least 24 bytes: shorter buffers are dropped silently (the capture state
is unchanged, no error value exists); for buffers of at least 24 bytes the
fields of the sample are the six little-endian binary32 floats at byte offsets
0, 4, 8, 12, 16, 20 in the order `ax, ay, az, gx, gy, gz`, trailing bytes
being ignored; and the 24-byte buffer encoding `(1.0, ..., 6.0)` decodes to
`ax = 1.0, ..., gz = 6.0`. -/
theorem frame_decoder_spec :
    (∀ bytes : List ℕ, bytes.length < 24 → decodeFrame bytes = none) ∧
    (∀ (st : DeviceCaptureState) (bytes : List ℕ) (now : ℚ),
      bytes.length < 24 → deviceStep st (.frame bytes now) = st) ∧
    (∀ bytes : List ℕ, 24 ≤ bytes.length →
      decodeFrame bytes
        = some (getFloat32LE bytes 0, getFloat32LE bytes 4,
            getFloat32LE bytes 8, getFloat32LE bytes 12,
            getFloat32LE bytes 16, getFloat32LE bytes 20)) ∧
    (∀ bytes extra : List ℕ, bytes.length = 24 →
      decodeFrame (bytes ++ extra) = decodeFrame bytes) ∧
    decodeFrame frame123456 = some (1, 2, 3, 4, 5, 6) := by
  refine ⟨decodeFrame_eq_none_of_short, ?_, decodeFrame_eq_some_of_long,
    ?_, decodeFrame_frame123456⟩
  · intro st bytes now h
    simp [deviceStep, addSampleFromNotification,
      decodeFrame_eq_none_of_short bytes h]
  · intro bytes extra h
    rw [decodeFrame_eq_some_of_long bytes (by omega),
      decodeFrame_eq_some_of_long (bytes ++ extra) (by simp; omega),
      getFloat32LE_append bytes extra 0 (by omega),
      getFloat32LE_append bytes extra 4 (by omega),
      getFloat32LE_append bytes extra 8 (by omega),
      getFloat32LE_append bytes extra 12 (by omega),
      getFloat32LE_append bytes extra 16 (by omega),
      getFloat32LE_append bytes extra 20 (by omega)]

/-- Witness for `frame_decoder_spec`: a 23-byte buffer yields no sample and
leaves the initial state unchanged; the example frame decodes through the
general at-least-24-bytes conjunct; trailing bytes are ignored on the
example frame. -/
theorem frame_decoder_spec_witness :
    decodeFrame (List.replicate 23 0) = none ∧
    deviceStep initialCaptureState (.frame (List.replicate 23 0) 1000)
      = initialCaptureState ∧
    decodeFrame frame123456
      = some (getFloat32LE frame123456 0, getFloat32LE frame123456 4,
          getFloat32LE frame123456 8, getFloat32LE frame123456 12,
          getFloat32LE frame123456 16, getFloat32LE frame123456 20) ∧
    decodeFrame (frame123456 ++ [9, 9, 9]) = decodeFrame frame123456 :=
  ⟨frame_decoder_spec.1 (List.replicate 23 0) (by simp),
   frame_decoder_spec.2.1 initialCaptureState (List.replicate 23 0) 1000
     (by simp),
   frame_decoder_spec.2.2.1 frame123456 (by norm_num [frame123456]),
   frame_decoder_spec.2.2.2.1 frame123456 [9, 9, 9]
     (by norm_num [frame123456])⟩

/-- One `pushSample` always leaves `min (buf.length + 1) 400` samples. -/
theorem pushSample_length (buf : List SwingSamplePayload)
    (s : SwingSamplePayload) :
    (pushSample buf s).length = min (buf.length + 1) 400 := by
  simp only [pushSample]
  split_ifs with h <;> simp at h ⊢ <;> omega

/-- Lemma: `pushSample` is the keep-the-last-400 suffix of the concatenation. -/
theorem pushSample_eq_drop (b : List SwingSamplePayload)
    (x : SwingSamplePayload) :
    pushSample b x = (b ++ [x]).drop ((b ++ [x]).length - 400) := by
  simp only [pushSample]
  split_ifs with h
  · rfl
  · have h0 : (b ++ [x]).length - 400 = 0 := by omega
    rw [h0, List.drop_zero]

/-- Folding `pushSample` over any sample list from a buffer within the cap
yields the suffix of the concatenation that keeps the most recent 400. -/
theorem foldl_pushSample (xs : List SwingSamplePayload) :
    ∀ b : List SwingSamplePayload, b.length ≤ 400 →
      xs.foldl pushSample b = (b ++ xs).drop ((b ++ xs).length - 400) := by
  induction xs with
  | nil =>
      intro b hb
      simp [Nat.sub_eq_zero_of_le hb]
  | cons x xs ih =>
      intro b hb
      rw [List.foldl_cons, ih (pushSample b x) (by rw [pushSample_length]; omega)]
      rw [pushSample_eq_drop]
      have hk : (b ++ [x]).length - 400 ≤ (b ++ [x]).length := by omega
      rw [← List.drop_append_of_le_length hk, List.drop_drop,
        show b ++ x :: xs = (b ++ [x]) ++ xs from by simp]
      have hlen : (((b ++ [x]) ++ xs).drop ((b ++ [x]).length - 400)).length
          = ((b ++ [x]) ++ xs).length - ((b ++ [x]).length - 400) :=
        List.length_drop _ _
      rw [hlen]
      have hamount : (b ++ [x]).length - 400
            + (((b ++ [x]) ++ xs).length - ((b ++ [x]).length - 400) - 400)
          = ((b ++ [x]) ++ xs).length - 400 := by
        simp only [List.length_append, List.length_cons, List.length_nil]
        omega
      rw [hamount]

/-- C7: the sliding capture buffer never holds more than 400 samples after
any sequence of accepted appends: each append leaves `min (length+1, 400)`
samples, and appending any sequence to the empty buffer leaves exactly the
last `min (length, 400)` appended samples in their original relative order;
in particular appending 450 samples leaves exactly the last 400. -/
theorem sliding_buffer_cap :
    (∀ (buf : List SwingSamplePayload) (s : SwingSamplePayload),
      (pushSample buf s).length = min (buf.length + 1) 400) ∧
    (∀ xs : List SwingSamplePayload,
      (xs.foldl pushSample []).length ≤ 400) ∧
    (∀ xs : List SwingSamplePayload,
      xs.foldl pushSample [] = xs.drop (xs.length - 400)) ∧
    (∀ xs : List SwingSamplePayload, xs.length = 450 →
      xs.foldl pushSample [] = xs.drop 50) := by
  have hfold : ∀ xs : List SwingSamplePayload,
      xs.foldl pushSample [] = xs.drop (xs.length - 400) := by
    intro xs
    simpa using foldl_pushSample xs [] (by simp)
  refine ⟨pushSample_length, ?_, hfold, ?_⟩
  · intro xs
    rw [hfold xs, List.length_drop]
    omega
  · intro xs h450
    rw [hfold xs, h450]

/-- A fixed sample used to build concrete buffers. -/
def dummySample : SwingSamplePayload := ⟨0, 0, 0, 0, 0, 0, 0⟩

/-- Witness for `sliding_buffer_cap`: appending 450 concrete samples leaves
exactly the last 400. -/
theorem sliding_buffer_cap_witness :
    (List.replicate 450 dummySample).foldl pushSample []
      = (List.replicate 450 dummySample).drop 50 :=
  sliding_buffer_cap.2.2.2 (List.replicate 450 dummySample)
    (by rw [List.length_replicate])

/-- C9: window extraction refuses iff the buffer holds zero samples (no
request is built); on every non-empty buffer the request carries the most
recent `min (100, length)` samples — on a 400-sample buffer exactly
`buffer[300:400]` — tagged with `sampling_rate_hz = 100`. The buffer is
passed by value and never mutated: extraction is a pure read. -/
theorem window_extractor_spec :
    (∀ buf : List SwingSamplePayload, handleSendSwing buf = none ↔ buf = []) ∧
    (∀ buf : List SwingSamplePayload, buf ≠ [] →
      ∃ req : ClassifyRequest, handleSendSwing buf = some req ∧
        req.samples = buf.drop (buf.length - 100) ∧
        req.samples.length = min 100 buf.length ∧
        req.sampling_rate_hz = 100) ∧
    (∀ buf : List SwingSamplePayload, buf.length = 400 →
      ∃ req : ClassifyRequest, handleSendSwing buf = some req ∧
        req.samples = buf.drop 300) := by
  refine ⟨?_, ?_, ?_⟩
  · intro buf
    constructor
    · intro h
      by_contra hne
      rw [handleSendSwing, if_neg (by simpa using List.length_pos.mpr hne |>.ne')] at h
      exact Option.noConfusion h
    · intro h
      subst h
      rfl
  · intro buf hne
    have hlen : ¬ buf.length = 0 := by simpa using List.length_pos.mpr hne |>.ne'
    refine ⟨⟨"practice_player", "device_session", 100,
      buf.drop (buf.length - 100)⟩, ?_, rfl, ?_, rfl⟩
    · rw [handleSendSwing, if_neg hlen]
    · rw [List.length_drop]
      omega
  · intro buf h400
    refine ⟨⟨"practice_player", "device_session", 100,
      buf.drop (buf.length - 100)⟩, ?_, ?_⟩
    · rw [handleSendSwing, if_neg (by omega)]
    · rw [h400]

/-- Witness for `window_extractor_spec`: a singleton buffer and a concrete
400-sample buffer. -/
theorem window_extractor_spec_witness :
    (handleSendSwing [] = none ↔ ([] : List SwingSamplePayload) = []) ∧
    (∃ req : ClassifyRequest,
      handleSendSwing [dummySample] = some req ∧
        req.samples = [dummySample].drop ([dummySample].length - 100) ∧
        req.samples.length = min 100 [dummySample].length ∧
        req.sampling_rate_hz = 100) ∧
    (∃ req : ClassifyRequest,
      handleSendSwing (List.replicate 400 dummySample) = some req ∧
        req.samples = (List.replicate 400 dummySample).drop 300) :=
  ⟨window_extractor_spec.1 [],
   window_extractor_spec.2.1 [dummySample] (by simp),
   window_extractor_spec.2.2 (List.replicate 400 dummySample)
     (by rw [List.length_replicate])⟩

/-- Dropping fewer elements than the length keeps the last element. -/
theorem getLast?_drop_of_lt {α : Type} (l : List α) (k : ℕ)
    (h : k < l.length) : (l.drop k).getLast? = l.getLast? := by
  conv_rhs => rw [← List.take_append_drop k l]
  rw [List.getLast?_append_of_ne_nil _ (by
    have hlen : (l.drop k).length = l.length - k := List.length_drop _ _
    intro hnil
    rw [hnil] at hlen
    simp at hlen
    omega)]

/-- C8 counterexample: reconnecting does not reset the capture buffer or
the epoch start time. After a frame at `t = 1000 ms`, a disconnect and a
reconnect, the buffer still holds the old sample, and the next accepted
frame (at `3500 ms`) is stamped `t = 2.5 s`, not `0`. -/
theorem epoch_reset_counterexample :
    (runDevice initialCaptureState
        [.connectOk, .frame frame123456 1000, .disconnect, .connectOk]).samples
      ≠ [] ∧
    ((runDevice initialCaptureState
        [.connectOk, .frame frame123456 1000, .disconnect, .connectOk,
          .frame frame123456 3500]).samples.getLast?).map SwingSamplePayload.t
      = some (5 / 2) := by
  have hrun1 : runDevice initialCaptureState
      [.connectOk, .frame frame123456 1000, .disconnect, .connectOk]
      = ⟨[⟨1, 2, 3, 4, 5, 6, 0⟩], some 1000, true⟩ := by
    simp only [runDevice, List.foldl_cons, List.foldl_nil, deviceStep,
      initialCaptureState, addSampleFromNotification, decodeFrame_frame123456]
    norm_num
  have hrun2 : runDevice initialCaptureState
      [.connectOk, .frame frame123456 1000, .disconnect, .connectOk,
        .frame frame123456 3500]
      = deviceStep (runDevice initialCaptureState
          [.connectOk, .frame frame123456 1000, .disconnect, .connectOk])
          (.frame frame123456 3500) := rfl
  constructor
  · rw [hrun1]
    simp
  · rw [hrun2, hrun1]
    simp only [deviceStep, addSampleFromNotification, decodeFrame_frame123456]
    norm_num

/-- C8 amended: the capture buffer is reset (and `t = 0` defined) only at
the first accepted frame when no start time exists yet — that is, once per
page mount, not per connection. Connect and disconnect events leave the
buffer and the start time untouched, so after a reconnect the samples of
the previous connection remain and timestamps stay relative to the first
accepted frame since mount: every accepted sample is stamped
`(now - start) / 1000` seconds with `start` the stored epoch start. -/
theorem epoch_start_amended :
    (∀ (st : DeviceCaptureState) (bytes : List ℕ) (now : ℚ),
      st.startTime = none → 24 ≤ bytes.length →
      ∃ s : SwingSamplePayload,
        (addSampleFromNotification st bytes now).samples = [s] ∧ s.t = 0 ∧
        (addSampleFromNotification st bytes now).startTime = some now) ∧
    (∀ st : DeviceCaptureState,
      (deviceStep st .connectOk).samples = st.samples ∧
      (deviceStep st .connectOk).startTime = st.startTime) ∧
    (∀ st : DeviceCaptureState,
      (deviceStep st .disconnect).samples = st.samples ∧
      (deviceStep st .disconnect).startTime = st.startTime) ∧
    (∀ (st : DeviceCaptureState) (bytes : List ℕ) (now t0 : ℚ),
      st.startTime = some t0 → 24 ≤ bytes.length →
      ∃ s : SwingSamplePayload,
        (addSampleFromNotification st bytes now).samples.getLast? = some s ∧
        s.t = (now - t0) / 1000 ∧
        (addSampleFromNotification st bytes now).startTime = some t0) := by
  refine ⟨?_, ?_, ?_, ?_⟩
  · intro st bytes now hst hlen
    simp only [addSampleFromNotification,
      decodeFrame_eq_some_of_long bytes hlen, hst, Option.getD_none,
      Option.isNone_none, if_true, List.nil_append]
    refine ⟨⟨getFloat32LE bytes 0, getFloat32LE bytes 4, getFloat32LE bytes 8,
      getFloat32LE bytes 12, getFloat32LE bytes 16, getFloat32LE bytes 20,
      (now - now) / 1000⟩, ?_, by norm_num, trivial⟩
    rw [if_neg (by simp)]
  · intro st
    exact ⟨rfl, rfl⟩
  · intro st
    exact ⟨rfl, rfl⟩
  · intro st bytes now t0 hst hlen
    simp only [addSampleFromNotification,
      decodeFrame_eq_some_of_long bytes hlen, hst, Option.getD_some,
      Option.isNone_some, Bool.false_eq_true, if_false]
    refine ⟨⟨getFloat32LE bytes 0, getFloat32LE bytes 4, getFloat32LE bytes 8,
      getFloat32LE bytes 12, getFloat32LE bytes 16, getFloat32LE bytes 20,
      (now - t0) / 1000⟩, ?_, rfl, trivial⟩
    split_ifs with h
    · rw [getLast?_drop_of_lt _ _ (by simp at h ⊢; omega)]
      simp
    · simp

/-- Witness for `epoch_start_amended`: the first accepted frame from the
mount state resets the buffer and defines `t = 0`; an accepted frame in a
running epoch started at `1000 ms` and received at `3500 ms` is stamped
`2.5 s`. -/
theorem epoch_start_amended_witness :
    (∃ s : SwingSamplePayload,
      (addSampleFromNotification initialCaptureState frame123456 1000).samples
        = [s] ∧ s.t = 0 ∧
      (addSampleFromNotification initialCaptureState frame123456 1000).startTime
        = some 1000) ∧
    (∃ s : SwingSamplePayload,
      (addSampleFromNotification ⟨[], some 1000, true⟩ frame123456
          3500).samples.getLast? = some s ∧
        s.t = (3500 - 1000) / 1000 ∧
        (addSampleFromNotification ⟨[], some 1000, true⟩ frame123456
          3500).startTime = some 1000) :=
  ⟨epoch_start_amended.1 initialCaptureState frame123456 1000 rfl
      (by norm_num [frame123456]),
   epoch_start_amended.2.2.2 ⟨[], some 1000, true⟩ frame123456 3500 1000 rfl
      (by norm_num [frame123456])⟩

end NeuraSentinel
